import Mathlib

/-!
Shallow embedding of the transactional wallet / token-purchase / profit-distribution
core of the prop-token-vault repository, taken from the SQL migration
`supabase/migrations/20250906175250_....sql`.

Modelling conventions:
* SQL `numeric` / `decimal` money amounts are embedded as `Rat` (arbitrary-precision
  exact arithmetic, matching PostgreSQL's unbounded `numeric` on the operations used).
* Tables are lists of rows; rows carrying a `uuid` primary key are `(Nat × row)` pairs,
  with `gen_random_uuid()` modelled by a fresh-id counter `next_id` in the state.
* Each PL/pgSQL function body runs inside one transaction; `RAISE EXCEPTION` aborts and
  rolls the whole transaction back.  An operation therefore returns `Except DbError _`:
  on `.error` no new state is produced and the caller keeps the unchanged pre-state.
* `auth.uid()` is the explicit `caller` argument.
* Only the columns that the verified operations read or write are carried; purely
  cosmetic columns (timestamps, image urls, descriptions, ...) are omitted.
-/

namespace PropVault

/-- Row of `public.properties` (columns used by the core operations). -/
structure Property where
  title : String
  total_tokens : Int
  token_price : Rat
  tokens_sold : Int
  status : String
  seller_user_id : Option Nat
  is_verified : Bool
deriving DecidableEq

/-- Row of `public.wallets`: `id` primary key, `user_id` unique, `balance numeric`. -/
structure Wallet where
  id : Nat
  user_id : Nat
  balance : Rat
deriving DecidableEq

/-- Row of `public.wallet_transactions`.  The `jsonb` metadata bag is embedded as the
optional typed fields that the core functions actually write
(`tokens`, `distribution_id`, `per_token`, `source`). -/
structure WalletTransaction where
  wallet_id : Nat
  type : String
  amount : Rat
  purchase_id : Option Nat
  property_id : Option Nat
  meta_tokens : Option Int
  meta_distribution_id : Option Nat
  meta_per_token : Option Rat
  meta_source : Option String
deriving DecidableEq

/-- Row of `public.token_purchases` (columns used by the core operations). -/
structure TokenPurchase where
  user_id : Nat
  property_id : Nat
  tokens_purchased : Int
  total_cost : Rat
  certificate_issued : Bool
deriving DecidableEq

/-- Row of `public.certificates` (columns written by `purchase_tokens`). -/
structure Certificate where
  user_id : Nat
  purchase_id : Nat
  certificate_number : String
  tokens_owned : Int
  property_title : String
deriving DecidableEq

/-- Row of `public.profit_distributions`. -/
structure ProfitDistribution where
  property_id : Nat
  total_amount : Rat
  per_token_amount : Rat
  created_by : Nat
  notes : Option String
deriving DecidableEq

/-- The `RAISE EXCEPTION` sites of the core functions, one constructor per distinct
failure message (the spec's error taxonomy). -/
inductive DbError where
  | InvalidAmount
  | PropertyUnavailable
  | InsufficientFunds
  | Unauthorized
  | NoTokensIssued
deriving DecidableEq

/-- The persistent state: the six core tables plus the role-grant table and the
fresh-id counter modelling `gen_random_uuid()`. -/
structure DB where
  properties : List (Nat × Property)
  wallets : List Wallet
  wallet_transactions : List WalletTransaction
  token_purchases : List (Nat × TokenPurchase)
  certificates : List (Nat × Certificate)
  profit_distributions : List (Nat × ProfitDistribution)
  user_roles : List (Nat × String)
  next_id : Nat
deriving DecidableEq

/-- Structural well-formedness guaranteed by the schema's constraints:
`wallets.id` is a primary key, `wallets.user_id` is UNIQUE, and every generated id
is below the fresh-id counter. -/
def WF (db : DB) : Prop :=
  (db.wallets.map Wallet.id).Nodup ∧
  (db.wallets.map Wallet.user_id).Nodup ∧
  ∀ w ∈ db.wallets, w.id < db.next_id

instance (db : DB) : Decidable (WF db) := by
  unfold WF; infer_instance

/-- `public.has_role(_user_id, _role)`: EXISTS over `user_roles`. -/
def has_role (db : DB) (uid : Nat) (r : String) : Bool :=
  db.user_roles.any (fun g => g.1 == uid && g.2 == r)

/-- `public.assign_role(target_user_id, target_role)`: admin-only; `ON CONFLICT
(user_id, role) DO NOTHING` makes the insert idempotent. -/
def assign_role (db : DB) (caller target : Nat) (r : String) : Except DbError DB :=
  if !(has_role db caller "admin") then .error .Unauthorized
  else if db.user_roles.any (fun g => g.1 == target && g.2 == r) then .ok db
  else .ok { db with user_roles := db.user_roles ++ [(target, r)] }

/-- `SELECT ... FROM wallets WHERE user_id = uid`. -/
def findWalletByUser (db : DB) (uid : Nat) : Option Wallet :=
  db.wallets.find? (fun w => w.user_id == uid)

/-- Balance of a user's wallet, `0` when the wallet does not exist yet. -/
def userBalance (db : DB) (uid : Nat) : Rat :=
  ((findWalletByUser db uid).map Wallet.balance).getD 0

/-- The shared wallet lookup / lazy creation prologue of `deposit_to_wallet` and
`purchase_tokens`: select the caller's wallet; if absent, `INSERT INTO wallets
(user_id) VALUES (uid)` (balance defaults to 0).  Returns the state, the wallet id
and the wallet balance. -/
def getOrCreateWallet (db : DB) (uid : Nat) : DB × Nat × Rat :=
  match findWalletByUser db uid with
  | some w => (db, w.id, w.balance)
  | none =>
    ({ db with wallets := db.wallets ++ [⟨db.next_id, uid, 0⟩], next_id := db.next_id + 1 },
     db.next_id, 0)

/-- `SELECT balance FROM wallets WHERE id = wid` (0 if absent; the callers only use it
on an id that exists). -/
def balanceOfWalletId (wallets : List Wallet) (wid : Nat) : Rat :=
  ((wallets.find? (fun w => w.id == wid)).map Wallet.balance).getD 0

/-- `public.deposit_to_wallet(p_amount)`: reject non-positive amounts, lazily create
the caller's wallet, `UPDATE wallets SET balance = balance + p_amount WHERE id = wid
RETURNING balance`, append one `deposit` transaction, return the new balance. -/
def deposit_to_wallet (db : DB) (caller : Nat) (p_amount : Rat) :
    Except DbError (DB × Rat) :=
  if p_amount ≤ 0 then .error .InvalidAmount
  else
    let s := getOrCreateWallet db caller
    let db1 := s.1
    let v_wallet_id := s.2.1
    let wallets2 := db1.wallets.map (fun w =>
      if w.id == v_wallet_id then { w with balance := w.balance + p_amount } else w)
    let v_balance := balanceOfWalletId wallets2 v_wallet_id
    let tx : WalletTransaction :=
      { wallet_id := v_wallet_id, type := "deposit", amount := p_amount,
        purchase_id := none, property_id := none, meta_tokens := none,
        meta_distribution_id := none, meta_per_token := none,
        meta_source := some "sandbox" }
    .ok ({ db1 with wallets := wallets2,
                    wallet_transactions := db1.wallet_transactions ++ [tx] }, v_balance)

/-- `SELECT token_price, title FROM properties WHERE id = pid AND status = 'active'`. -/
def getActiveProperty (db : DB) (pid : Nat) : Option (Nat × Property) :=
  db.properties.find? (fun q => q.1 == pid && q.2.status == "active")

/-- First property row with the given id (ids are a primary key in the schema). -/
def lookupProp (db : DB) (pid : Nat) : Option Property :=
  (db.properties.find? (fun q => q.1 == pid)).map Prod.snd

/-- `public.purchase_tokens(p_property_id, p_tokens)`: validate the count, snapshot
price and title of the active property, lazily create the caller's wallet, check the
balance, debit, insert the purchase row, append the `purchase` transaction,
`UPDATE properties SET tokens_sold = tokens_sold + p_tokens WHERE id = p_property_id`
(there is no `tokens_sold + p_tokens <= total_tokens` bound check in the source), and
insert the certificate shell.  Returns `(purchase_id, certificate_id)`.
The random `certificate_number` suffix is modelled from the fresh-id counter. -/
def purchase_tokens (db : DB) (caller : Nat) (p_property_id : Nat) (p_tokens : Int) :
    Except DbError (DB × Nat × Nat) :=
  if p_tokens ≤ 0 then .error .InvalidAmount
  else
    match getActiveProperty db p_property_id with
    | none => .error .PropertyUnavailable
    | some pr =>
      let v_price := pr.2.token_price
      let v_property_title := pr.2.title
      let v_cost := v_price * (p_tokens : Rat)
      let s := getOrCreateWallet db caller
      let db1 := s.1
      let v_wallet_id := s.2.1
      let v_balance := s.2.2
      if v_balance < v_cost then .error .InsufficientFunds
      else
        let wallets2 := db1.wallets.map (fun w =>
          if w.id == v_wallet_id then { w with balance := w.balance - v_cost } else w)
        let v_purchase_id := db1.next_id
        let purchaseRow : TokenPurchase :=
          { user_id := caller, property_id := p_property_id, tokens_purchased := p_tokens,
            total_cost := v_cost, certificate_issued := false }
        let tx : WalletTransaction :=
          { wallet_id := v_wallet_id, type := "purchase", amount := v_cost,
            purchase_id := some v_purchase_id, property_id := some p_property_id,
            meta_tokens := some p_tokens, meta_distribution_id := none,
            meta_per_token := none, meta_source := none }
        let props2 := db1.properties.map (fun q =>
          if q.1 == p_property_id then
            (q.1, { q.2 with tokens_sold := q.2.tokens_sold + p_tokens }) else q)
        let v_certificate_id := db1.next_id + 1
        let certRow : Certificate :=
          { user_id := caller, purchase_id := v_purchase_id,
            certificate_number := "CERT-" ++ toString v_certificate_id,
            tokens_owned := p_tokens, property_title := v_property_title }
        .ok ({ db1 with
                wallets := wallets2,
                token_purchases := db1.token_purchases ++ [(v_purchase_id, purchaseRow)],
                wallet_transactions := db1.wallet_transactions ++ [tx],
                properties := props2,
                certificates := db1.certificates ++ [(v_certificate_id, certRow)],
                next_id := db1.next_id + 2 },
              v_purchase_id, v_certificate_id)

/-- `SELECT COALESCE(SUM(tokens_purchased), 0) FROM token_purchases
WHERE property_id = pid`. -/
def totalTokensIssued (db : DB) (pid : Nat) : Int :=
  ((db.token_purchases.filter (fun q => q.2.property_id == pid)).map
    (fun q => q.2.tokens_purchased)).sum

/-- Tokens of one user within an (already property-filtered) purchase list. -/
def tokensFor (ps : List (Nat × TokenPurchase)) (uid : Nat) : Int :=
  ((ps.filter (fun q => q.2.user_id == uid)).map (fun q => q.2.tokens_purchased)).sum

/-- `SELECT user_id, SUM(tokens_purchased) FROM token_purchases
WHERE property_id = pid GROUP BY user_id`: one `(user, token sum)` pair per distinct
holder of the property. -/
def holders (db : DB) (pid : Nat) : List (Nat × Int) :=
  let ps := db.token_purchases.filter (fun q => q.2.property_id == pid)
  ((ps.map (fun q => q.2.user_id)).dedup).map (fun u => (u, tokensFor ps u))

/-- One iteration of the holder loop of `distribute_property_profit`: lazily create
the holder's wallet, `UPDATE wallets SET balance = balance + per * tokens
WHERE user_id = holder`, then `INSERT INTO wallet_transactions ... SELECT w.id, ...
FROM wallets w WHERE w.user_id = holder`. -/
def creditHolder (pid did : Nat) (per : Rat) (db : DB) (rec : Nat × Int) : DB :=
  let db1 : DB :=
    if db.wallets.any (fun w => w.user_id == rec.1) then db
    else { db with wallets := db.wallets ++ [⟨db.next_id, rec.1, 0⟩],
                   next_id := db.next_id + 1 }
  let wallets2 := db1.wallets.map (fun w =>
    if w.user_id == rec.1 then { w with balance := w.balance + per * (rec.2 : Rat) }
    else w)
  let txs := (wallets2.filter (fun w => w.user_id == rec.1)).map (fun w =>
    ({ wallet_id := w.id, type := "profit", amount := per * (rec.2 : Rat),
       purchase_id := none, property_id := some pid, meta_tokens := some rec.2,
       meta_distribution_id := some did, meta_per_token := some per,
       meta_source := none } : WalletTransaction))
  { db1 with wallets := wallets2,
             wallet_transactions := db1.wallet_transactions ++ txs }

/-- The authorization condition of `distribute_property_profit`: admin, or verified
seller owning the property. -/
def mayDistribute (db : DB) (caller pid : Nat) : Bool :=
  has_role db caller "admin" ||
    (has_role db caller "seller_verified" &&
      db.properties.any (fun q => q.1 == pid && q.2.seller_user_id == some caller))

/-- `public.distribute_property_profit(p_property_id, p_total_amount, p_notes)`:
authorize, validate the amount, sum all tokens ever purchased for the property
(fail when zero), compute `per_token = total / tokens`, insert the distribution row,
then loop over the holders crediting `per_token * holder_tokens` each. -/
def distribute_property_profit (db : DB) (caller pid : Nat) (p_total_amount : Rat)
    (p_notes : Option String) : Except DbError (DB × Nat) :=
  if !(mayDistribute db caller pid) then .error .Unauthorized
  else if p_total_amount ≤ 0 then .error .InvalidAmount
  else
    let v_total_tokens := totalTokensIssued db pid
    if v_total_tokens == 0 then .error .NoTokensIssued
    else
      let v_per_token := p_total_amount / (v_total_tokens : Rat)
      let v_dist_id := db.next_id
      let distRow : ProfitDistribution :=
        { property_id := pid, total_amount := p_total_amount,
          per_token_amount := v_per_token, created_by := caller, notes := p_notes }
      let db1 : DB :=
        { db with profit_distributions :=
                    db.profit_distributions ++ [(v_dist_id, distRow)],
                  next_id := db.next_id + 1 }
      let db2 := (holders db1 pid).foldl (creditHolder pid v_dist_id v_per_token) db1
      .ok (db2, v_dist_id)

/-- `public.prevent_nonadmin_verification_change` trigger body: the update is rejected
iff it changes `is_verified` and the actor is not an admin. -/
def prevent_nonadmin_verification_change (db : DB) (caller : Nat)
    (oldRow newRow : Property) : Bool :=
  (newRow.is_verified != oldRow.is_verified) && !(has_role db caller "admin")

/-- `UPDATE properties SET ... WHERE id = pid` guarded by the BEFORE UPDATE trigger
`properties_prevent_nonadmin_verify`: the trigger's exception aborts the whole
statement, otherwise the row is replaced by the new row. -/
def update_property (db : DB) (caller pid : Nat) (newRow : Property) :
    Except DbError DB :=
  match lookupProp db pid with
  | none => .ok db
  | some oldRow =>
    if prevent_nonadmin_verification_change db caller oldRow newRow then
      .error .Unauthorized
    else
      .ok { db with properties := db.properties.map (fun q =>
              if q.1 == pid then (q.1, newRow) else q) }

/-! ### Concrete example states (used to instantiate the theorems) -/

/-- An active sample property: 1000 token supply, 10 sold, price 10, owned by user 2. -/
def exPropA : Property :=
  { title := "A", total_tokens := 1000, token_price := 10, tokens_sold := 10,
    status := "active", seller_user_id := some 2, is_verified := false }

/-- An inactive sample property. -/
def exPropI : Property :=
  { title := "I", total_tokens := 10, token_price := 5, tokens_sold := 0,
    status := "inactive", seller_user_id := none, is_verified := false }

/-- Sample state: property 100 active, property 200 inactive, user 1 holds a wallet
with balance 100, user 9 is admin, user 2 is a verified seller, no purchases yet. -/
def exDb : DB :=
  { properties := [(100, exPropA), (200, exPropI)],
    wallets := [⟨0, 1, 100⟩],
    wallet_transactions := [], token_purchases := [], certificates := [],
    profit_distributions := [],
    user_roles := [(9, "admin"), (2, "seller_verified")],
    next_id := 5 }

/-- Sample property for the distribution scenario of the spec: 400 tokens sold. -/
def exPropD : Property :=
  { title := "D", total_tokens := 1000, token_price := 50, tokens_sold := 400,
    status := "active", seller_user_id := some 2, is_verified := false }

/-- Sample state for distributions: user 1 purchased 100 tokens of property 100 and
user 2 purchased 300 (in two purchases); user 9 is admin. -/
def exDbDist : DB :=
  { properties := [(100, exPropD)],
    wallets := [⟨0, 1, 0⟩, ⟨1, 2, 7⟩],
    wallet_transactions := [],
    token_purchases := [(10, ⟨1, 100, 100, 5000, false⟩),
                        (11, ⟨2, 100, 200, 10000, false⟩),
                        (12, ⟨2, 100, 100, 5000, false⟩)],
    certificates := [], profit_distributions := [],
    user_roles := [(9, "admin")], next_id := 20 }

/-- A fully sold-out active property: supply 10, already 10 sold, price 1. -/
def exPropFull : Property :=
  { title := "F", total_tokens := 10, token_price := 1, tokens_sold := 10,
    status := "active", seller_user_id := none, is_verified := false }

/-- Sample state witnessing the missing oversell bound check: property 300 is sold
out, yet user 1 still has funds. -/
def exDbFull : DB :=
  { properties := [(300, exPropFull)],
    wallets := [⟨0, 1, 100⟩],
    wallet_transactions := [], token_purchases := [], certificates := [],
    profit_distributions := [], user_roles := [], next_id := 5 }

/-! ### Shared list lemmas -/

/-- `find?` commutes with mapping a function that does not change the predicate. -/
theorem find?_map_of_pred_inv {α : Type} (l : List α) (g : α → α) (p : α → Bool)
    (hp : ∀ a, p (g a) = p a) :
    (l.map g).find? p = (l.find? p).map g := by
  rw [List.find?_map]
  have h : (p ∘ g) = p := funext hp
  rw [h]

/-- A `find?` result satisfying an extra test is also the first match of the
conjunction. -/
theorem find?_and_of_find? {α : Type} {l : List α} {p q : α → Bool} {a : α}
    (h : l.find? p = some a) (hq : q a = true) :
    l.find? (fun x => p x && q x) = some a := by
  induction l with
  | nil => simp at h
  | cons b l ih =>
    by_cases hb : p b = true
    · rw [List.find?_cons_of_pos _ hb] at h
      cases h
      exact List.find?_cons_of_pos _ (by simp [hb, hq])
    · rw [List.find?_cons_of_neg _ hb] at h
      rw [List.find?_cons_of_neg _ (by simp [hb])]
      exact ih h

/-- Under a `Nodup` id column, looking a member wallet up by its id finds it. -/
theorem find?_id_of_mem {l : List Wallet} {w : Wallet} (hmem : w ∈ l)
    (hnd : (l.map Wallet.id).Nodup) :
    l.find? (fun x => x.id == w.id) = some w := by
  induction l with
  | nil => cases hmem
  | cons v l ih =>
    rw [List.map_cons, List.nodup_cons] at hnd
    rcases List.mem_cons.mp hmem with rfl | hmem'
    · exact List.find?_cons_of_pos _ (by simp)
    · have hv : v.id ≠ w.id := by
        intro he
        exact hnd.1 (he ▸ List.mem_map_of_mem Wallet.id hmem')
      rw [List.find?_cons_of_neg _ (by simp [hv])]
      exact ih hmem' hnd.2

/-- Summing a one-point indicator over a duplicate-free list that contains the point
yields the indicated value. -/
theorem sum_map_indicator {us : List Nat} (hnd : us.Nodup) {a : Nat} (ha : a ∈ us)
    (c : Int) :
    (us.map (fun u => if a == u then c else 0)).sum = c := by
  induction us with
  | nil => cases ha
  | cons v us ih =>
    rw [List.nodup_cons] at hnd
    rcases List.mem_cons.mp ha with rfl | ha'
    · have hz : (us.map (fun u => if a == u then c else 0)).sum = 0 := by
        apply List.sum_eq_zero
        intro x hx
        rcases List.mem_map.mp hx with ⟨u, hu, rfl⟩
        have : a ≠ u := fun he => hnd.1 (he ▸ hu)
        simp [this]
      rw [List.map_cons, List.sum_cons, hz]
      simp
    · have hav : a ≠ v := fun he => (he ▸ hnd.1) ha'
      rw [List.map_cons, List.sum_cons, if_neg (by simp [hav]), zero_add,
        ih hnd.2 ha']

/-- `tokensFor` on a cons splits into an indicator plus the tail sum. -/
theorem tokensFor_cons (q : Nat × TokenPurchase) (ps : List (Nat × TokenPurchase))
    (u : Nat) :
    tokensFor (q :: ps) u =
      (if q.2.user_id == u then q.2.tokens_purchased else 0) + tokensFor ps u := by
  by_cases h : q.2.user_id == u
  · simp [tokensFor, List.filter_cons, h]
  · simp [tokensFor, List.filter_cons, h]

/-- Grouping conservation: summing the per-user token totals over any duplicate-free
list of users covering all purchases equals the plain sum over all purchases. -/
theorem sum_map_tokensFor (ps : List (Nat × TokenPurchase)) (us : List Nat)
    (hnd : us.Nodup) (hcov : ∀ q ∈ ps, q.2.user_id ∈ us) :
    (us.map (fun u => tokensFor ps u)).sum =
      (ps.map (fun q => q.2.tokens_purchased)).sum := by
  induction ps with
  | nil =>
    simp only [tokensFor, List.filter_nil, List.map_nil, List.sum_nil]
    exact List.sum_eq_zero (by intro x hx; rcases List.mem_map.mp hx with ⟨u, _, rfl⟩; rfl)
  | cons q ps ih =>
    have hmapeq : us.map (fun u => tokensFor (q :: ps) u) =
        us.map (fun u =>
          (if q.2.user_id == u then q.2.tokens_purchased else 0) + tokensFor ps u) :=
      List.map_congr_left (fun u _ => tokensFor_cons q ps u)
    rw [hmapeq, List.sum_map_add,
      sum_map_indicator hnd (hcov q (List.mem_cons_self q ps)) q.2.tokens_purchased,
      ih (fun q' hq' => hcov q' (List.mem_cons_of_mem q hq'))]
    simp

/-- The holder list has duplicate-free user ids. -/
theorem holders_fst_nodup (db : DB) (pid : Nat) :
    ((holders db pid).map Prod.fst).Nodup := by
  simp only [holders, List.map_map]
  have h : (Prod.fst ∘ fun u =>
      ((u, tokensFor (db.token_purchases.filter (fun q => q.2.property_id == pid)) u) :
        Nat × Int)) = id := rfl
  rw [h, List.map_id]
  exact List.nodup_dedup _

/-- The holder token totals sum to the property's total issued tokens. -/
theorem holders_snd_sum (db : DB) (pid : Nat) :
    ((holders db pid).map Prod.snd).sum = totalTokensIssued db pid := by
  simp only [holders, totalTokensIssued, List.map_map]
  exact sum_map_tokensFor _ _ (List.nodup_dedup _)
    (fun q hq => List.mem_dedup.mpr (List.mem_map_of_mem _ hq))

/-- Casting an integer list sum to `Rat` equals summing the casts. -/
theorem intCast_list_sum (l : List Int) :
    ((l.sum : Int) : Rat) = (l.map (fun z => (Int.cast z : Rat))).sum := by
  induction l with
  | nil => simp
  | cons a l ih => simp [ih]

/-- Searching a wallet by user through a user-preserving rewrite of the table. -/
theorem find?_user_map (l : List Wallet) (g : Wallet → Wallet)
    (hg : ∀ w, (g w).user_id = w.user_id) (u : Nat) :
    (l.map g).find? (fun w => w.user_id == u) =
      (l.find? (fun w => w.user_id == u)).map g :=
  find?_map_of_pred_inv l g _ (fun a => by rw [hg])

/-- Searching a wallet by id through an id-preserving rewrite of the table. -/
theorem find?_wid_map (l : List Wallet) (g : Wallet → Wallet)
    (hg : ∀ w, (g w).id = w.id) (wid : Nat) :
    (l.map g).find? (fun w => w.id == wid) =
      (l.find? (fun w => w.id == wid)).map g :=
  find?_map_of_pred_inv l g _ (fun a => by rw [hg])

/-- Searching a property by id through a key-preserving rewrite of the table. -/
theorem find?_pid_map (l : List (Nat × Property))
    (g : (Nat × Property) → (Nat × Property)) (hg : ∀ q, (g q).1 = q.1) (pid : Nat) :
    (l.map g).find? (fun q => q.1 == pid) = (l.find? (fun q => q.1 == pid)).map g :=
  find?_map_of_pred_inv l g _ (fun a => by rw [hg])

/-- The balance returned by the wallet prologue is the user's balance (0 when the
wallet is only now being created). -/
theorem getOrCreateWallet_balance (db : DB) (uid : Nat) :
    (getOrCreateWallet db uid).2.2 = userBalance db uid := by
  unfold getOrCreateWallet userBalance
  cases h : findWalletByUser db uid <;> simp [h]

/-- Master description of a successful `deposit_to_wallet`: result value, caller's
wallet row, full frame on every other table and on other users' wallets, and the
single appended ledger row. -/
theorem deposit_ok_master (db : DB) (caller : Nat) (amount : Rat) (hwf : WF db)
    (hpos : 0 < amount) :
    ∃ db' wid,
      deposit_to_wallet db caller amount =
        .ok (db', userBalance db caller + amount) ∧
      findWalletByUser db' caller =
        some ⟨wid, caller, userBalance db caller + amount⟩ ∧
      db'.properties = db.properties ∧
      db'.token_purchases = db.token_purchases ∧
      db'.certificates = db.certificates ∧
      db'.profit_distributions = db.profit_distributions ∧
      db'.user_roles = db.user_roles ∧
      db'.wallet_transactions = db.wallet_transactions ++
        [⟨wid, "deposit", amount, none, none, none, none, none, some "sandbox"⟩] ∧
      (∀ u, u ≠ caller → findWalletByUser db' u = findWalletByUser db u) := by
  obtain ⟨hids, husers, hfresh⟩ := hwf
  have hnle : ¬ amount ≤ 0 := not_le.mpr hpos
  cases h : findWalletByUser db caller with
  | some w =>
    have hfind : db.wallets.find? (fun x => x.user_id == caller) = some w := h
    have hwu : w.user_id = caller := by
      have := List.find?_some hfind
      simpa using this
    have hmem : w ∈ db.wallets := List.mem_of_find?_eq_some hfind
    have hs : getOrCreateWallet db caller = (db, w.id, w.balance) := by
      simp [getOrCreateWallet, h]
    have hub : userBalance db caller = w.balance := by
      simp [userBalance, h]
    have hgid : ∀ x : Wallet,
        ((if x.id == w.id then { x with balance := x.balance + amount } else x :
          Wallet)).id = x.id := by
      intro x; split <;> rfl
    have hguser : ∀ x : Wallet,
        ((if x.id == w.id then { x with balance := x.balance + amount } else x :
          Wallet)).user_id = x.user_id := by
      intro x; split <;> rfl
    have hfid : db.wallets.find? (fun x => x.id == w.id) = some w :=
      find?_id_of_mem hmem hids
    have hbal : balanceOfWalletId
        (db.wallets.map (fun x =>
          if x.id == w.id then { x with balance := x.balance + amount } else x))
        w.id = w.balance + amount := by
      unfold balanceOfWalletId
      rw [find?_wid_map _ _ hgid, hfid]
      simp
    have hfuser : (db.wallets.map (fun x =>
        if x.id == w.id then { x with balance := x.balance + amount } else x)).find?
          (fun x => x.user_id == caller) =
        some { w with balance := w.balance + amount } := by
      rw [find?_user_map _ _ hguser, hfind]
      simp
    refine ⟨{ db with
        wallets := db.wallets.map (fun x =>
          if x.id == w.id then { x with balance := x.balance + amount } else x),
        wallet_transactions := db.wallet_transactions ++
          [⟨w.id, "deposit", amount, none, none, none, none, none, some "sandbox"⟩] },
      w.id, ?_, ?_, rfl, rfl, rfl, rfl, rfl, rfl, ?_⟩
    · simp only [deposit_to_wallet, if_neg hnle, hs, hub, hbal]
    · have e : findWalletByUser { db with
          wallets := db.wallets.map (fun x =>
            if x.id == w.id then { x with balance := x.balance + amount } else x),
          wallet_transactions := db.wallet_transactions ++
            [⟨w.id, "deposit", amount, none, none, none, none, none,
              some "sandbox"⟩] } caller =
          some { w with balance := w.balance + amount } := hfuser
      rw [e, hub, ← hwu]
    · intro u hu
      simp only [findWalletByUser]
      rw [find?_user_map _ _ hguser]
      cases hfu : db.wallets.find? (fun x => x.user_id == u) with
      | none => simp [hfu]
      | some wu =>
        have hwuu : wu.user_id = u := by
          have := List.find?_some hfu
          simpa using this
        have hne : wu ≠ w := by
          intro he
          exact hu (by rw [← hwuu, he, hwu])
        have hidne : wu.id ≠ w.id := by
          intro he
          exact hne (List.inj_on_of_nodup_map hids
            (List.mem_of_find?_eq_some hfu) hmem he)
        simp [hfu, hidne]
  | none =>
    have hfind : db.wallets.find? (fun x => x.user_id == caller) = none := h
    have hs : getOrCreateWallet db caller =
        ({ db with wallets := db.wallets ++ [⟨db.next_id, caller, 0⟩],
                   next_id := db.next_id + 1 }, db.next_id, 0) := by
      simp [getOrCreateWallet, h]
    have hub : userBalance db caller = 0 := by
      simp [userBalance, h]
    have hmapold : db.wallets.map (fun x =>
        if x.id == db.next_id then { x with balance := x.balance + amount } else x) =
        db.wallets := by
      calc db.wallets.map (fun x =>
            if x.id == db.next_id then { x with balance := x.balance + amount } else x)
          = db.wallets.map id :=
            List.map_congr_left (fun x hx => by
              have : x.id ≠ db.next_id := Nat.ne_of_lt (hfresh x hx)
              simp [this])
        _ = db.wallets := List.map_id _
    have hwallets2 : (db.wallets ++ [(⟨db.next_id, caller, 0⟩ : Wallet)]).map (fun x =>
        if x.id == db.next_id then { x with balance := x.balance + amount } else x) =
        db.wallets ++ [⟨db.next_id, caller, 0 + amount⟩] := by
      rw [List.map_append, hmapold]
      simp
    have hnotid : db.wallets.find? (fun x => x.id == db.next_id) = none := by
      rw [List.find?_eq_none]
      intro x hx
      simp [Nat.ne_of_lt (hfresh x hx)]
    have hbal : balanceOfWalletId
        (db.wallets ++ [(⟨db.next_id, caller, 0 + amount⟩ : Wallet)]) db.next_id =
        0 + amount := by
      unfold balanceOfWalletId
      rw [List.find?_append, hnotid]
      simp
    refine ⟨{ db with
        wallets := db.wallets ++ [⟨db.next_id, caller, 0 + amount⟩],
        wallet_transactions := db.wallet_transactions ++
          [⟨db.next_id, "deposit", amount, none, none, none, none, none,
            some "sandbox"⟩],
        next_id := db.next_id + 1 },
      db.next_id, ?_, ?_, rfl, rfl, rfl, rfl, rfl, rfl, ?_⟩
    · simp only [deposit_to_wallet, if_neg hnle, hs, hub, hwallets2, hbal]
    · simp only [findWalletByUser]
      rw [List.find?_append, hfind, hub]
      simp
    · intro u hu
      simp only [findWalletByUser]
      rw [List.find?_append]
      cases hfu : db.wallets.find? (fun x => x.user_id == u) with
      | none => simp [hfu, Ne.symm hu]
      | some wu => simp [hfu]

/-- Master description of a successful `purchase_tokens`: the returned ids, the
property row's `tokens_sold` increment, the single appended purchase, certificate and
`purchase`-transaction rows, and the buyer's balance debit. -/
theorem purchase_ok_master (db : DB) (buyer pid : Nat) (prop : Property) (n : Int)
    (hwf : WF db)
    (hrow : db.properties.find? (fun q => q.1 == pid) = some (pid, prop))
    (hact : prop.status = "active")
    (hn : 0 < n)
    (hbal : prop.token_price * (n : Rat) ≤ userBalance db buyer) :
    ∃ db' npid ncid wid,
      purchase_tokens db buyer pid n = .ok (db', npid, ncid) ∧
      db'.properties.find? (fun q => q.1 == pid) =
        some (pid, { prop with tokens_sold := prop.tokens_sold + n }) ∧
      db'.token_purchases = db.token_purchases ++
        [(npid, ⟨buyer, pid, n, prop.token_price * (n : Rat), false⟩)] ∧
      db'.certificates = db.certificates ++
        [(ncid, ⟨buyer, npid, "CERT-" ++ toString ncid, n, prop.title⟩)] ∧
      db'.wallet_transactions = db.wallet_transactions ++
        [⟨wid, "purchase", prop.token_price * (n : Rat), some npid, some pid,
          some n, none, none, none⟩] ∧
      userBalance db' buyer = userBalance db buyer - prop.token_price * (n : Rat) := by
  obtain ⟨hids, husers, hfresh⟩ := hwf
  have hnle : ¬ n ≤ 0 := not_le.mpr hn
  have hactive : getActiveProperty db pid = some (pid, prop) :=
    find?_and_of_find? hrow (by simp [hact])
  have hgpid : ∀ q : Nat × Property,
      ((if q.1 == pid then (q.1, { q.2 with tokens_sold := q.2.tokens_sold + n })
        else q : Nat × Property)).1 = q.1 := by
    intro q; split <;> rfl
  have hprops : (db.properties.map (fun q =>
      if q.1 == pid then (q.1, { q.2 with tokens_sold := q.2.tokens_sold + n })
      else q)).find? (fun q => q.1 == pid) =
      some (pid, { prop with tokens_sold := prop.tokens_sold + n }) := by
    rw [find?_pid_map _ _ hgpid, hrow]
    simp
  cases h : findWalletByUser db buyer with
  | some w =>
    have hfind : db.wallets.find? (fun x => x.user_id == buyer) = some w := h
    have hmem : w ∈ db.wallets := List.mem_of_find?_eq_some hfind
    have hs : getOrCreateWallet db buyer = (db, w.id, w.balance) := by
      simp [getOrCreateWallet, h]
    have hub : userBalance db buyer = w.balance := by
      simp [userBalance, h]
    have hnlt : ¬ w.balance < prop.token_price * (n : Rat) :=
      not_lt.mpr (hub ▸ hbal)
    have hguser : ∀ x : Wallet,
        ((if x.id == w.id then
            { x with balance := x.balance - prop.token_price * (n : Rat) } else x :
          Wallet)).user_id = x.user_id := by
      intro x; split <;> rfl
    have hfuser : (db.wallets.map (fun x =>
        if x.id == w.id then
          { x with balance := x.balance - prop.token_price * (n : Rat) } else x)).find?
          (fun x => x.user_id == buyer) =
        some { w with balance := w.balance - prop.token_price * (n : Rat) } := by
      rw [find?_user_map _ _ hguser, hfind]
      simp
    refine ⟨{ db with
        wallets := db.wallets.map (fun x =>
          if x.id == w.id then
            { x with balance := x.balance - prop.token_price * (n : Rat) } else x),
        token_purchases := db.token_purchases ++
          [(db.next_id, ⟨buyer, pid, n, prop.token_price * (n : Rat), false⟩)],
        wallet_transactions := db.wallet_transactions ++
          [⟨w.id, "purchase", prop.token_price * (n : Rat), some db.next_id,
            some pid, some n, none, none, none⟩],
        properties := db.properties.map (fun q =>
          if q.1 == pid then (q.1, { q.2 with tokens_sold := q.2.tokens_sold + n })
          else q),
        certificates := db.certificates ++
          [(db.next_id + 1, ⟨buyer, db.next_id,
            "CERT-" ++ toString (db.next_id + 1), n, prop.title⟩)],
        next_id := db.next_id + 2 },
      db.next_id, db.next_id + 1, w.id, ?_, hprops, rfl, rfl, rfl, ?_⟩
    · simp only [purchase_tokens, if_neg hnle, hactive, hs, if_neg hnlt]
    · show (((db.wallets.map (fun x =>
        if x.id == w.id then
          { x with balance := x.balance - prop.token_price * (n : Rat) } else x)).find?
          (fun x => x.user_id == buyer)).map Wallet.balance).getD 0 = _
      rw [hfuser, hub]
      rfl
  | none =>
    have hfind : db.wallets.find? (fun x => x.user_id == buyer) = none := h
    have hs : getOrCreateWallet db buyer =
        ({ db with wallets := db.wallets ++ [⟨db.next_id, buyer, 0⟩],
                   next_id := db.next_id + 1 }, db.next_id, 0) := by
      simp [getOrCreateWallet, h]
    have hub : userBalance db buyer = 0 := by
      simp [userBalance, h]
    have hnlt : ¬ (0 : Rat) < prop.token_price * (n : Rat) :=
      not_lt.mpr (hub ▸ hbal)
    have hmapold : db.wallets.map (fun x =>
        if x.id == db.next_id then
          { x with balance := x.balance - prop.token_price * (n : Rat) } else x) =
        db.wallets := by
      calc db.wallets.map (fun x =>
            if x.id == db.next_id then
              { x with balance := x.balance - prop.token_price * (n : Rat) } else x)
          = db.wallets.map id :=
            List.map_congr_left (fun x hx => by
              have : x.id ≠ db.next_id := Nat.ne_of_lt (hfresh x hx)
              simp [this])
        _ = db.wallets := List.map_id _
    have hwallets2 : (db.wallets ++ [(⟨db.next_id, buyer, 0⟩ : Wallet)]).map (fun x =>
        if x.id == db.next_id then
          { x with balance := x.balance - prop.token_price * (n : Rat) } else x) =
        db.wallets ++ [⟨db.next_id, buyer, 0 - prop.token_price * (n : Rat)⟩] := by
      rw [List.map_append, hmapold]
      simp
    refine ⟨{ db with
        wallets := db.wallets ++
          [⟨db.next_id, buyer, 0 - prop.token_price * (n : Rat)⟩],
        token_purchases := db.token_purchases ++
          [(db.next_id + 1, ⟨buyer, pid, n, prop.token_price * (n : Rat), false⟩)],
        wallet_transactions := db.wallet_transactions ++
          [⟨db.next_id, "purchase", prop.token_price * (n : Rat),
            some (db.next_id + 1), some pid, some n, none, none, none⟩],
        properties := db.properties.map (fun q =>
          if q.1 == pid then (q.1, { q.2 with tokens_sold := q.2.tokens_sold + n })
          else q),
        certificates := db.certificates ++
          [(db.next_id + 1 + 1, ⟨buyer, db.next_id + 1,
            "CERT-" ++ toString (db.next_id + 1 + 1), n, prop.title⟩)],
        next_id := db.next_id + 1 + 2 },
      db.next_id + 1, db.next_id + 1 + 1, db.next_id, ?_, hprops, rfl, rfl,
      rfl, ?_⟩
    · simp only [purchase_tokens, if_neg hnle, hactive, hs, if_neg hnlt, hwallets2]
    · show ((((db.wallets ++
        [(⟨db.next_id, buyer, 0 - prop.token_price * (n : Rat)⟩ : Wallet)]).find?
          (fun x => x.user_id == buyer)).map Wallet.balance).getD 0 : Rat) = _
      rw [List.find?_append, hfind, hub]
      simp

/-- `creditHolder` only touches wallets, transactions and the id counter. -/
theorem creditHolder_profit_distributions (pid did : Nat) (per : Rat) (db : DB)
    (rec : Nat × Int) :
    (creditHolder pid did per db rec).profit_distributions =
      db.profit_distributions := by
  by_cases h : db.wallets.any (fun w => w.user_id == rec.1) = true
  · simp [creditHolder, h]
  · simp [creditHolder, h]

/-- Crediting a holder raises exactly that holder's balance by `per * tokens`
(creating the wallet at balance 0 first when absent). -/
theorem creditHolder_balance_self (pid did : Nat) (per : Rat) (db : DB)
    (rec : Nat × Int) :
    userBalance (creditHolder pid did per db rec) rec.1 =
      userBalance db rec.1 + per * (rec.2 : Rat) := by
  have hg : ∀ x : Wallet,
      ((if x.user_id == rec.1 then
          { x with balance := x.balance + per * (rec.2 : Rat) } else x :
        Wallet)).user_id = x.user_id := by
    intro x; split <;> rfl
  by_cases h : db.wallets.any (fun w => w.user_id == rec.1) = true
  · cases hf : db.wallets.find? (fun w => w.user_id == rec.1) with
    | none =>
      rw [List.find?_eq_none] at hf
      rw [List.any_eq_true] at h
      obtain ⟨x, hx, hpx⟩ := h
      exact absurd hpx (hf x hx)
    | some w =>
      have hwu : w.user_id = rec.1 := by simpa using List.find?_some hf
      simp only [creditHolder, h, if_true, userBalance, findWalletByUser]
      rw [find?_user_map _ _ hg, hf]
      simp [hwu]
  · have h' : db.wallets.any (fun w => w.user_id == rec.1) = false := by
      simpa using h
    have hnone : db.wallets.find? (fun w => w.user_id == rec.1) = none := by
      rw [List.find?_eq_none]
      intro x hx hpx
      rw [List.any_eq_false] at h'
      exact h' x hx hpx
    have hub : userBalance db rec.1 = 0 := by
      simp [userBalance, findWalletByUser, hnone]
    simp only [creditHolder, h', Bool.false_eq_true, if_false, userBalance,
      findWalletByUser]
    rw [List.map_append, List.find?_append, find?_user_map _ _ hg, hnone]
    simp

/-- Crediting one holder leaves every other user's balance unchanged. -/
theorem creditHolder_balance_other (pid did : Nat) (per : Rat) (db : DB)
    (rec : Nat × Int) (v : Nat) (hv : v ≠ rec.1) :
    userBalance (creditHolder pid did per db rec) v = userBalance db v := by
  have hg : ∀ x : Wallet,
      ((if x.user_id == rec.1 then
          { x with balance := x.balance + per * (rec.2 : Rat) } else x :
        Wallet)).user_id = x.user_id := by
    intro x; split <;> rfl
  by_cases h : db.wallets.any (fun w => w.user_id == rec.1) = true
  · simp only [creditHolder, h, if_true, userBalance, findWalletByUser]
    rw [find?_user_map _ _ hg]
    cases hf : db.wallets.find? (fun w => w.user_id == v) with
    | none => simp [hf]
    | some w =>
      have hwu : w.user_id = v := by simpa using List.find?_some hf
      simp [hf, hwu, hv]
  · have h' : db.wallets.any (fun w => w.user_id == rec.1) = false := by
      simpa using h
    simp only [creditHolder, h', Bool.false_eq_true, if_false, userBalance,
      findWalletByUser]
    rw [List.map_append, List.find?_append, find?_user_map _ _ hg]
    cases hf : db.wallets.find? (fun w => w.user_id == v) with
    | none => simp [hf, Ne.symm hv]
    | some w =>
      have hwu : w.user_id = v := by simpa using List.find?_some hf
      simp [hf, hwu, hv]

/-- Folding `creditHolder` over a holder list keeps the distribution table. -/
theorem foldl_credit_profit_distributions (recs : List (Nat × Int)) (pid did : Nat)
    (per : Rat) (db0 : DB) :
    (recs.foldl (creditHolder pid did per) db0).profit_distributions =
      db0.profit_distributions := by
  induction recs generalizing db0 with
  | nil => rfl
  | cons r rs ih =>
    rw [List.foldl_cons, ih, creditHolder_profit_distributions]

/-- A user outside the holder list keeps their balance through the payout loop. -/
theorem foldl_credit_balance_notmem (recs : List (Nat × Int)) (pid did : Nat)
    (per : Rat) (db0 : DB) (v : Nat) (hv : v ∉ recs.map Prod.fst) :
    userBalance (recs.foldl (creditHolder pid did per) db0) v =
      userBalance db0 v := by
  induction recs generalizing db0 with
  | nil => rfl
  | cons r rs ih =>
    rw [List.map_cons, List.mem_cons] at hv
    push_neg at hv
    rw [List.foldl_cons, ih _ hv.2, creditHolder_balance_other _ _ _ _ _ _ hv.1]

/-- Each holder in a duplicate-free holder list ends the payout loop with their
balance raised by exactly `per * tokens`. -/
theorem foldl_credit_balance_mem (recs : List (Nat × Int)) (pid did : Nat)
    (per : Rat) (db0 : DB) (hnd : (recs.map Prod.fst).Nodup) :
    ∀ rec ∈ recs,
      userBalance (recs.foldl (creditHolder pid did per) db0) rec.1 =
        userBalance db0 rec.1 + per * (rec.2 : Rat) := by
  induction recs generalizing db0 with
  | nil => intro rec h; cases h
  | cons r rs ih =>
    intro rec hrec
    rw [List.map_cons, List.nodup_cons] at hnd
    rcases List.mem_cons.mp hrec with rfl | hmem
    · rw [List.foldl_cons, foldl_credit_balance_notmem rs pid did per _ _ hnd.1,
        creditHolder_balance_self]
    · have hne : rec.1 ≠ r.1 := by
        intro he
        exact hnd.1 (he ▸ List.mem_map_of_mem Prod.fst hmem)
      rw [List.foldl_cons, ih _ hnd.2 rec hmem,
        creditHolder_balance_other _ _ _ _ _ _ hne]

/-- Conservation across the payout loop: the holder balance increases sum to
`per * totalTokensIssued`. -/
theorem fold_credit_sum (db1 : DB) (pid did : Nat) (per : Rat) :
    ((holders db1 pid).map (fun rec =>
      userBalance ((holders db1 pid).foldl (creditHolder pid did per) db1) rec.1 -
        userBalance db1 rec.1)).sum = per * (totalTokensIssued db1 pid : Rat) := by
  calc ((holders db1 pid).map (fun rec =>
        userBalance ((holders db1 pid).foldl (creditHolder pid did per) db1) rec.1 -
          userBalance db1 rec.1)).sum
      = ((holders db1 pid).map (fun rec => per * (rec.2 : Rat))).sum := by
        apply congrArg List.sum
        apply List.map_congr_left
        intro rec hrec
        rw [foldl_credit_balance_mem _ _ _ _ _ (holders_fst_nodup db1 pid) rec hrec]
        ring
    _ = per * ((holders db1 pid).map (fun rec => (rec.2 : Rat))).sum := by
        rw [List.sum_map_mul_left]
    _ = per * (totalTokensIssued db1 pid : Rat) := by
        have hcast : (holders db1 pid).map (fun rec => ((rec.2 : Int) : Rat)) =
            ((holders db1 pid).map Prod.snd).map (fun z => (Int.cast z : Rat)) := by
          rw [List.map_map]
          exact List.map_congr_left (fun a _ => rfl)
        rw [hcast, ← intCast_list_sum, holders_snd_sum]

/-! ### Claim theorems -/

/-- C7: `assign_role` fails with `Unauthorized` for a non-admin caller (role grants
unchanged, the aborted transaction leaves no state), and for an admin caller it
succeeds idempotently: the grant is added only when absent, no duplicate row is
created, and an immediate second identical call returns the same state. -/
theorem assign_role_spec (db : DB) (caller target : Nat) (r : String) :
    (has_role db caller "admin" = false →
       assign_role db caller target r = .error .Unauthorized) ∧
    (has_role db caller "admin" = true →
       ∃ db', assign_role db caller target r = .ok db' ∧
         has_role db' target r = true ∧
         (has_role db target r = true → db'.user_roles = db.user_roles) ∧
         (has_role db target r = false →
            db'.user_roles = db.user_roles ++ [(target, r)]) ∧
         assign_role db' caller target r = .ok db') := by
  constructor
  · intro h
    simp [assign_role, h]
  · intro h
    by_cases hg : has_role db target r = true
    · have hg2 : db.user_roles.any (fun g => g.1 == target && g.2 == r) = true := hg
      refine ⟨db, ?_, hg, fun _ => rfl, fun hng => absurd hg (by simp [hng]), ?_⟩
      · simp [assign_role, h, hg2]
      · simp [assign_role, h, hg2]
    · have hg' : has_role db target r = false := by simpa using hg
      refine ⟨{ db with user_roles := db.user_roles ++ [(target, r)] }, ?_, ?_,
        fun hyes => absurd hyes (by simp [hg']), fun _ => rfl, ?_⟩
      · have : db.user_roles.any (fun g => g.1 == target && g.2 == r) = false := hg'
        simp [assign_role, h, this]
      · simp [has_role, List.any_append]
      · have hadm : has_role { db with user_roles := db.user_roles ++ [(target, r)] }
            caller "admin" = true := by
          simp only [has_role, List.any_append]
          simp [show db.user_roles.any
            (fun g => g.1 == caller && g.2 == "admin") = true from h]
        have hmem : ({ db with user_roles := db.user_roles ++ [(target, r)] } :
            DB).user_roles.any (fun g => g.1 == target && g.2 == r) = true := by
          simp [List.any_append]
        simp [assign_role, hadm, hmem]

/-- C1: when the property is active with per-token price `p`, the token count `n` is
positive and the buyer's balance covers `n * p`, `purchase_tokens` succeeds and:
`tokens_sold` grows by exactly `n`, exactly one TokenPurchase row (cost `n * p`),
one Certificate row and one `purchase` WalletTransaction row (amount `n * p`) are
appended, and the buyer's balance drops by exactly `n * p`. -/
theorem purchase_tokens_success_spec (db : DB) (buyer pid : Nat) (prop : Property)
    (p : Rat) (n : Int) (hwf : WF db)
    (hrow : db.properties.find? (fun q => q.1 == pid) = some (pid, prop))
    (hact : prop.status = "active")
    (hprice : prop.token_price = p)
    (hn : 0 < n)
    (hbal : p * (n : Rat) ≤ userBalance db buyer) :
    ∃ db' npid ncid,
      purchase_tokens db buyer pid n = .ok (db', npid, ncid) ∧
      lookupProp db' pid = some { prop with tokens_sold := prop.tokens_sold + n } ∧
      db'.token_purchases = db.token_purchases ++
        [(npid, ⟨buyer, pid, n, p * (n : Rat), false⟩)] ∧
      (∃ cert, db'.certificates = db.certificates ++ [(ncid, cert)]) ∧
      (∃ tx, db'.wallet_transactions = db.wallet_transactions ++ [tx] ∧
        tx.type = "purchase" ∧ tx.amount = p * (n : Rat)) ∧
      userBalance db' buyer = userBalance db buyer - p * (n : Rat) := by
  subst hprice
  obtain ⟨db', npid, ncid, wid, hok, hfp, htp, hc, htx, hub⟩ :=
    purchase_ok_master db buyer pid prop n hwf hrow hact hn hbal
  refine ⟨db', npid, ncid, hok, ?_, htp, ⟨_, hc⟩, ⟨_, htx, rfl, rfl⟩, hub⟩
  simp [lookupProp, hfp]

/-- C1 witness: user 1 buys 2 tokens of the active property 100 at price 10 from
balance 100: sold count goes from 10 to 12 and the balance drops by 20. -/
theorem purchase_tokens_success_spec_witness :
    ∃ db' npid ncid, purchase_tokens exDb 1 100 2 = .ok (db', npid, ncid) ∧
      lookupProp db' 100 =
        some { exPropA with tokens_sold := exPropA.tokens_sold + 2 } ∧
      userBalance db' 1 = userBalance exDb 1 - 10 * ((2 : Int) : Rat) := by
  obtain ⟨db', npid, ncid, hok, hlp, _, _, _, hub⟩ :=
    purchase_tokens_success_spec exDb 1 100 exPropA 10 2 (by decide) (by decide) rfl
      rfl (by decide)
      (by rw [show userBalance exDb 1 = (100 : Rat) from rfl]; norm_num)
  exact ⟨db', npid, ncid, hok, hlp, hub⟩

/-- C2: purchasing a positive token count of an active property while the wallet
balance is strictly below `price * tokenCount` fails with `InsufficientFunds`; the
aborted transaction mutates nothing (no state is produced on the error path). -/
theorem purchase_tokens_insufficient_spec (db : DB) (buyer pid : Nat)
    (prop : Property) (p : Rat) (n : Int)
    (hrow : db.properties.find? (fun q => q.1 == pid) = some (pid, prop))
    (hact : prop.status = "active")
    (hprice : prop.token_price = p)
    (hn : 0 < n)
    (hbal : userBalance db buyer < p * (n : Rat)) :
    purchase_tokens db buyer pid n = .error .InsufficientFunds := by
  subst hprice
  have hnle : ¬ n ≤ 0 := not_le.mpr hn
  have hactive : getActiveProperty db pid = some (pid, prop) :=
    find?_and_of_find? hrow (by simp [hact])
  cases h : findWalletByUser db buyer with
  | some w =>
    have hs : getOrCreateWallet db buyer = (db, w.id, w.balance) := by
      simp [getOrCreateWallet, h]
    have hub : userBalance db buyer = w.balance := by
      simp [userBalance, h]
    have hlt : w.balance < prop.token_price * (n : Rat) := hub ▸ hbal
    simp only [purchase_tokens, if_neg hnle, hactive, hs, if_pos hlt]
  | none =>
    have hs : getOrCreateWallet db buyer =
        ({ db with wallets := db.wallets ++ [⟨db.next_id, buyer, 0⟩],
                   next_id := db.next_id + 1 }, db.next_id, 0) := by
      simp [getOrCreateWallet, h]
    have hub : userBalance db buyer = 0 := by
      simp [userBalance, h]
    have hlt : (0 : Rat) < prop.token_price * (n : Rat) := hub ▸ hbal
    simp only [purchase_tokens, if_neg hnle, hactive, hs, if_pos hlt]

/-- C2 witness: the spec's own numbers — price 50, balance 100, 3 tokens, cost 150:
the purchase is rejected with `InsufficientFunds`. -/
theorem purchase_tokens_insufficient_spec_witness :
    purchase_tokens exDbDist 1 100 3 = .error .InsufficientFunds := by
  have h1 : userBalance exDbDist 1 = (0 : Rat) := rfl
  exact purchase_tokens_insufficient_spec exDbDist 1 100 exPropD 50 3 (by decide)
    (by decide) rfl (by decide) (by rw [h1]; norm_num)

/-- C9: purchasing a positive token count against a property id that is absent or
whose status is not `active` fails with `PropertyUnavailable`; the aborted
transaction mutates nothing (no state is produced on the error path). -/
theorem purchase_tokens_unavailable_spec (db : DB) (buyer pid : Nat) (n : Int)
    (hn : 0 < n) (hprop : getActiveProperty db pid = none) :
    purchase_tokens db buyer pid n = .error .PropertyUnavailable := by
  have hnle : ¬ n ≤ 0 := not_le.mpr hn
  simp only [purchase_tokens, if_neg hnle, hprop]

/-- C9 witness: buying from the inactive property 200 and from the nonexistent
property 999 both fail with `PropertyUnavailable`. -/
theorem purchase_tokens_unavailable_spec_witness :
    purchase_tokens exDb 1 200 1 = .error .PropertyUnavailable ∧
    purchase_tokens exDb 1 999 1 = .error .PropertyUnavailable :=
  ⟨purchase_tokens_unavailable_spec exDb 1 200 1 (by decide) (by decide),
   purchase_tokens_unavailable_spec exDb 1 999 1 (by decide) (by decide)⟩

/-- C3 (code bug): `purchase_tokens` performs no
`tokens_sold + p_tokens <= total_tokens` bound check before incrementing, so buying
one token of the fully sold-out (10 of 10) active property 300 succeeds and leaves
`tokens_sold = 11 > 10 = total_tokens`, violating the documented property invariant
`0 <= tokens_sold <= total_tokens`. -/
theorem purchase_tokens_oversell_bug :
    ∃ db' npid ncid, purchase_tokens exDbFull 1 300 1 = .ok (db', npid, ncid) ∧
      ∃ pr, lookupProp db' 300 = some pr ∧ pr.total_tokens < pr.tokens_sold := by
  obtain ⟨db', npid, ncid, wid, hok, hfp, _, _, _, _⟩ :=
    purchase_ok_master exDbFull 1 300 exPropFull 1 (by decide) (by decide) rfl
      (by decide)
      (by rw [show userBalance exDbFull 1 = (100 : Rat) from rfl]
          norm_num [exPropFull])
  refine ⟨db', npid, ncid, hok,
    { exPropFull with tokens_sold := exPropFull.tokens_sold + 1 }, ?_, by decide⟩
  simp [lookupProp, hfp]

/-- C6: `deposit_to_wallet` rejects non-positive amounts with `InvalidAmount` (the
aborted transaction changes nothing); for a positive amount it lazily creates the
caller's wallet when absent, increases the balance by exactly the amount, appends
exactly one `deposit` transaction with the same amount, and returns the resulting
balance (old balance plus amount). -/
theorem deposit_spec (db : DB) (caller : Nat) (amount : Rat) (hwf : WF db) :
    (amount ≤ 0 → deposit_to_wallet db caller amount = .error .InvalidAmount) ∧
    (0 < amount →
       ∃ db', deposit_to_wallet db caller amount =
           .ok (db', userBalance db caller + amount) ∧
         (findWalletByUser db' caller).isSome = true ∧
         userBalance db' caller = userBalance db caller + amount ∧
         ∃ wid, db'.wallet_transactions = db.wallet_transactions ++
           [⟨wid, "deposit", amount, none, none, none, none, none,
             some "sandbox"⟩]) := by
  constructor
  · intro h
    simp [deposit_to_wallet, h]
  · intro hpos
    obtain ⟨db', wid, hok, hfw, _, _, _, _, _, htx, _⟩ :=
      deposit_ok_master db caller amount hwf hpos
    refine ⟨db', hok, ?_, ?_, wid, htx⟩
    · rw [hfw]; rfl
    · simp [userBalance, hfw]

/-- C6 witness: in the sample state, a zero deposit is rejected and a deposit of 25
by user 1 yields balance 125 with the balance effect as specified. -/
theorem deposit_spec_witness :
    deposit_to_wallet exDb 1 0 = .error .InvalidAmount ∧
    ∃ db', deposit_to_wallet exDb 1 25 = .ok (db', userBalance exDb 1 + 25) ∧
      userBalance db' 1 = userBalance exDb 1 + 25 := by
  constructor
  · exact (deposit_spec exDb 1 0 (by decide)).1 (by norm_num)
  · obtain ⟨db', hok, _, hbal, _⟩ := (deposit_spec exDb 1 25 (by decide)).2 (by norm_num)
    exact ⟨db', hok, hbal⟩

/-- C10: a successful deposit modifies only the caller's own wallet row and appends
exactly one wallet transaction (for that wallet): all other tables — properties,
token purchases, certificates, profit distributions, role grants — and every other
user's wallet row are unchanged, and the pre-existing transaction log is a prefix of
the new one. -/
theorem deposit_frame_spec (db : DB) (caller : Nat) (amount : Rat) (db' : DB)
    (ret : Rat) (hwf : WF db)
    (hok : deposit_to_wallet db caller amount = .ok (db', ret)) :
    db'.properties = db.properties ∧
    db'.token_purchases = db.token_purchases ∧
    db'.certificates = db.certificates ∧
    db'.profit_distributions = db.profit_distributions ∧
    db'.user_roles = db.user_roles ∧
    (∀ u, u ≠ caller → findWalletByUser db' u = findWalletByUser db u) ∧
    ∃ tx, db'.wallet_transactions = db.wallet_transactions ++ [tx] ∧
      tx.type = "deposit" ∧
      ∃ w, findWalletByUser db' caller = some w ∧ tx.wallet_id = w.id := by
  have hpos : 0 < amount := by
    by_contra hn
    have hle : amount ≤ 0 := not_lt.mp hn
    simp [deposit_to_wallet, hle] at hok
  obtain ⟨db'', wid, hok2, hfw, hp, htp, hc, hpd, hur, htx, hothers⟩ :=
    deposit_ok_master db caller amount hwf hpos
  rw [hok] at hok2
  have hpair : (db', ret) = (db'', userBalance db caller + amount) :=
    Except.ok.inj hok2
  have hdb : db' = db'' := congrArg Prod.fst hpair
  subst hdb
  exact ⟨hp, htp, hc, hpd, hur, hothers,
    ⟨wid, "deposit", amount, none, none, none, none, none, some "sandbox"⟩,
    htx, rfl, ⟨wid, caller, userBalance db caller + amount⟩, hfw, rfl⟩

/-- C10 witness: the concrete deposit of 25 by user 1 leaves the property table and
user 2's (absent) wallet untouched and appends one `deposit` transaction. -/
theorem deposit_frame_spec_witness :
    ∃ db' ret, deposit_to_wallet exDb 1 25 = .ok (db', ret) ∧
      db'.properties = exDb.properties ∧
      findWalletByUser db' 2 = findWalletByUser exDb 2 ∧
      ∃ tx, db'.wallet_transactions = exDb.wallet_transactions ++ [tx] ∧
        tx.type = "deposit" := by
  obtain ⟨db', wid, hok, -, -, -, -, -, -, -, -⟩ :=
    deposit_ok_master exDb 1 25 (by decide) (by norm_num)
  obtain ⟨hp, _, _, _, _, hothers, tx, htx, hty, _⟩ :=
    deposit_frame_spec exDb 1 25 db' (userBalance exDb 1 + 25) (by decide) hok
  exact ⟨db', userBalance exDb 1 + 25, hok, hp, hothers 2 (by decide), tx, htx, hty⟩

/-- C8: a property update that flips `is_verified` is rejected whole with
`Unauthorized` for a non-admin actor (the aborted statement changes no field, bundled
edits included), while an update leaving `is_verified` unchanged passes the
verification gate and lands the new row. -/
theorem verification_gate_spec (db : DB) (caller pid : Nat) (oldP newP : Property)
    (hold : lookupProp db pid = some oldP) :
    (newP.is_verified ≠ oldP.is_verified → has_role db caller "admin" = false →
       update_property db caller pid newP = .error .Unauthorized) ∧
    (newP.is_verified = oldP.is_verified →
       ∃ db', update_property db caller pid newP = .ok db' ∧
         lookupProp db' pid = some newP) := by
  constructor
  · intro hne hadm
    have hgate : prevent_nonadmin_verification_change db caller oldP newP = true := by
      simp [prevent_nonadmin_verification_change, hadm, hne]
    simp [update_property, hold, hgate]
  · intro heq
    have hold0 := hold
    cases hfr : db.properties.find? (fun q => q.1 == pid) with
    | none => simp [lookupProp, hfr] at hold0
    | some pr =>
      have hsnd : pr.2 = oldP := by simpa [lookupProp, hfr] using hold0
      have hpr1 : pr.1 = pid := by simpa using List.find?_some hfr
      have hgate : prevent_nonadmin_verification_change db caller oldP newP =
          false := by
        simp [prevent_nonadmin_verification_change, heq]
      have hg : ∀ q : Nat × Property,
          ((if q.1 == pid then ((q.1, newP) : Nat × Property) else q)).1 = q.1 := by
        intro q; split <;> rfl
      refine ⟨{ db with properties := db.properties.map (fun q =>
          if q.1 == pid then (q.1, newP) else q) }, ?_, ?_⟩
      · simp [update_property, hold, hgate]
      · simp only [lookupProp]
        rw [find?_pid_map _ _ hg, hfr]
        simp [hpr1]

/-- C8 witness: non-admin user 1 cannot flip `is_verified` of property 100 (even
bundled with other edits the statement fails whole), while their title-only edit is
not blocked by the gate. -/
theorem verification_gate_spec_witness :
    update_property exDb 1 100 { exPropA with is_verified := true } =
      .error .Unauthorized ∧
    ∃ db', update_property exDb 1 100 { exPropA with title := "B" } = .ok db' ∧
      lookupProp db' 100 = some { exPropA with title := "B" } := by
  constructor
  · exact (verification_gate_spec exDb 1 100 exPropA _ rfl).1 (by decide) (by decide)
  · exact (verification_gate_spec exDb 1 100 exPropA _ rfl).2 rfl

/-- C7 witness: concrete instances — user 1 (no admin role) is rejected; admin user 9
grants a role to user 3 and the repeated call is a no-op. -/
theorem assign_role_spec_witness :
    assign_role exDb 1 3 "user" = .error .Unauthorized ∧
    ∃ db', assign_role exDb 9 3 "user" = .ok db' ∧ has_role db' 3 "user" = true ∧
      assign_role db' 9 3 "user" = .ok db' := by
  constructor
  · exact (assign_role_spec exDb 1 3 "user").1 (by decide)
  · obtain ⟨db', h1, h2, _, _, h5⟩ := (assign_role_spec exDb 9 3 "user").2 (by decide)
    exact ⟨db', h1, h2, h5⟩

/-- C4: an authorized `distribute_property_profit` on a property whose purchased
tokens sum to `T > 0`, with amount `A > 0`, succeeds, records a distribution row with
`per_token_amount = A / T`, credits every distinct holder with `(A / T) * h` for
their `h` tokens, and the holder balance increases sum to exactly `A` (exact rational
arithmetic: the rounding remainder is zero). -/
theorem distribute_profit_conservation_spec (db : DB) (caller pid : Nat) (A : Rat)
    (notes : Option String)
    (hauth : mayDistribute db caller pid = true)
    (hA : 0 < A)
    (hT : 0 < totalTokensIssued db pid) :
    ∃ db' did,
      distribute_property_profit db caller pid A notes = .ok (db', did) ∧
      db'.profit_distributions = db.profit_distributions ++
        [(did, ⟨pid, A, A / (totalTokensIssued db pid : Rat), caller, notes⟩)] ∧
      (∀ rec ∈ holders db pid,
        userBalance db' rec.1 = userBalance db rec.1 +
          (A / (totalTokensIssued db pid : Rat)) * (rec.2 : Rat)) ∧
      ((holders db pid).map
        (fun rec => userBalance db' rec.1 - userBalance db rec.1)).sum = A := by
  have h1 : (!(mayDistribute db caller pid)) = false := by rw [hauth]; rfl
  have hnA : ¬ A ≤ 0 := not_le.mpr hA
  have h3 : (totalTokensIssued db pid == 0) = false := by
    simpa using hT.ne'
  simp only [distribute_property_profit, h1, Bool.false_eq_true, if_false,
    if_neg hnA, h3]
  refine ⟨_, _, rfl, ?_, ?_, ?_⟩
  · rw [foldl_credit_profit_distributions]
  · intro rec hrec
    exact foldl_credit_balance_mem _ pid db.next_id
      (A / (totalTokensIssued db pid : Rat)) _
      (holders_fst_nodup _ pid) rec hrec
  · have hs := fold_credit_sum
      { db with
        profit_distributions := db.profit_distributions ++
          [(db.next_id, ⟨pid, A, A / (totalTokensIssued db pid : Rat), caller,
            notes⟩)],
        next_id := db.next_id + 1 }
      pid db.next_id (A / (totalTokensIssued db pid : Rat))
    have hfin : (A / (totalTokensIssued db pid : Rat)) *
        ((totalTokensIssued db pid : Int) : Rat) = A :=
      div_mul_cancel₀ A (Int.cast_ne_zero.mpr hT.ne')
    exact hs.trans hfin

/-- C4 witness: the spec's example — holders with 100 and 300 tokens, `A = 1000`:
per-token amount `5/2`, holder balances rise by 250 (to 250) and 750 (to 757). -/
theorem distribute_profit_conservation_spec_witness :
    ∃ db' did, distribute_property_profit exDbDist 9 100 1000 none =
        .ok (db', did) ∧
      userBalance db' 1 = 250 ∧ userBalance db' 2 = 757 ∧
      db'.profit_distributions = exDbDist.profit_distributions ++
        [(did, ⟨100, 1000, 5 / 2, 9, none⟩)] := by
  obtain ⟨db', did, hok, hpd, hmem, hsum⟩ :=
    distribute_profit_conservation_spec exDbDist 9 100 1000 none (by decide)
      (by norm_num) (by decide)
  have hT : totalTokensIssued exDbDist 100 = (400 : Int) := rfl
  have hper : (1000 : Rat) / ((400 : Int) : Rat) = 5 / 2 := by norm_num
  refine ⟨db', did, hok, ?_, ?_, ?_⟩
  · have h1 := hmem (1, 100) (by decide)
    rw [show userBalance exDbDist 1 = (0 : Rat) from rfl, hT, hper] at h1
    rw [h1]
    norm_num
  · have h2 := hmem (2, 300) (by decide)
    rw [show userBalance exDbDist 2 = (7 : Rat) from rfl, hT, hper] at h2
    rw [h2]
    norm_num
  · rw [hpd, hT, hper]

/-- C5 counterexample: the claim quantifies over every authorized call on a
zero-purchase property, but the amount validation precedes the token-sum check: the
authorized admin 9 calling with total amount `-1` on the purchase-free property 100
fails with `InvalidAmount`, not `NoTokensIssued`. -/
theorem distribute_no_tokens_claim_counterexample :
    mayDistribute exDb 9 100 = true ∧
    totalTokensIssued exDb 100 = 0 ∧
    distribute_property_profit exDb 9 100 (-1) none = .error .InvalidAmount ∧
    distribute_property_profit exDb 9 100 (-1) none ≠ .error .NoTokensIssued := by
  have h1 : (!(mayDistribute exDb 9 100)) = false := by decide
  have hle : (-1 : Rat) ≤ 0 := by norm_num
  have heq : distribute_property_profit exDb 9 100 (-1) none =
      .error .InvalidAmount := by
    simp only [distribute_property_profit, h1, Bool.false_eq_true, if_false,
      if_pos hle]
  exact ⟨by decide, rfl, heq, by rw [heq]; simp⟩

/-- C5 (amended): an authorized `distribute_property_profit` call with positive
total amount on a property with zero purchased tokens fails with `NoTokensIssued`;
the aborted transaction creates no distribution row and changes no wallet or
transaction state (no state is produced on the error path). -/
theorem distribute_no_tokens_spec (db : DB) (caller pid : Nat) (A : Rat)
    (notes : Option String)
    (hauth : mayDistribute db caller pid = true)
    (hA : 0 < A)
    (hzero : totalTokensIssued db pid = 0) :
    distribute_property_profit db caller pid A notes = .error .NoTokensIssued := by
  have h1 : (!(mayDistribute db caller pid)) = false := by rw [hauth]; rfl
  have hnA : ¬ A ≤ 0 := not_le.mpr hA
  have h3 : (totalTokensIssued db pid == 0) = true := by rw [hzero]; rfl
  simp only [distribute_property_profit, h1, Bool.false_eq_true, if_false,
    if_neg hnA, h3, if_true]

/-- C5 witness: admin 9 distributing 5 on the purchase-free property 100 fails with
`NoTokensIssued`. -/
theorem distribute_no_tokens_spec_witness :
    distribute_property_profit exDb 9 100 5 none = .error .NoTokensIssued :=
  distribute_no_tokens_spec exDb 9 100 5 none (by decide) (by norm_num) rfl

end PropVault
